import Mathlib

/-!
Verification development for the go-opap client library (package `opap`).

The Go source is shallowly embedded: pure string manipulation becomes Lean
functions on `String`/`List Char`, the injected `http.Client` becomes an
explicit transport function `HTTPRequest → Except String (Int × String)`
(error message, or status code and body), and Go's multiple-return
`(result, *http.Response, error)` conventions become explicit sum/product
types.  Go slices, which are nullable, are embedded as `Option (List _)`
with `none` standing for the nil slice.

URL handling (`net/url`) is embedded for the fragment of the language of
URLs this client exercises: references that carry no scheme, authority,
query or fragment part, over characters that `net/url` neither escapes nor
unescapes when printing the resolved URL (plus percent-escape validation,
which is the only parse failure relevant here).  Dot-segment removal in
`ResolveReference` is embedded faithfully (Go's `resolvePath`).
-/

namespace Opap

/-! ## Characters and generic list-of-char utilities -/
/-- Whitespace characters skipped by Go's JSON scanner. -/
def isJsonWS (c : Char) : Bool :=
  c = ' ' ∨ c = '\t' ∨ c = '\n' ∨ c = '\r'

/-- Hexadecimal digit test, as in `net/url`'s `ishex`. -/
def isHexChar (c : Char) : Bool :=
  c.isDigit ∨ ('a' ≤ c ∧ c ≤ 'f') ∨ ('A' ≤ c ∧ c ≤ 'F')

/-- Split a character list on a separator character, like Go's
`strings.Split` with a one-character separator: the result is the list of
(possibly empty) chunks between separators and always has at least one
element. -/
def splitOnChar (sep : Char) : List Char → List (List Char)
  | [] => [[]]
  | c :: cs =>
    if c = sep then [] :: splitOnChar sep cs
    else
      match splitOnChar sep cs with
      | s :: ss => (c :: s) :: ss
      | [] => [[c]]

/-- Join chunks with a separator, like Go's `strings.Join` with a
one-character separator. -/
def joinChar (sep : Char) : List (List Char) → List Char
  | [] => []
  | [x] => x
  | x :: xs => x ++ sep :: joinChar sep xs

/-! ## net/url model -/
/-- Percent-escape validity of a raw URL string: every `%` must be followed
by two hexadecimal digits.  This is the only failure mode of `url.Parse`
exercised by this client (Go reports it as `invalid URL escape`). -/
def validEscapes : List Char → Bool
  | [] => true
  | c :: cs =>
    if c = '%' then
      match cs with
      | a :: b :: rest => isHexChar a ∧ isHexChar b ∧ validEscapes rest
      | _ => false
    else validEscapes cs

/-- The part of `base` up to and including its last `/`, i.e. Go's
`base[:strings.LastIndex(base, "/")+1]` used by `resolvePath` to merge
paths. -/
def upToLastSlash (l : List Char) : List Char :=
  (l.reverse.dropWhile (fun c => c ≠ '/')).reverse

/-- One step of dot-segment removal: Go's `resolvePath` loop body.
`"."` is dropped, `".."` pops the last collected segment, anything else is
kept. -/
def dotStep (dst : List (List Char)) (elem : List Char) : List (List Char) :=
  if elem = ['.'] then dst
  else if elem = ['.', '.'] then dst.dropLast
  else dst ++ [elem]

/-- Go `net/url.resolvePath(base, ref)`: merge the reference path onto the
base path and remove dot segments.  Faithful to the Go source, including
the trailing-slash fix-up for a final `.`/`..` segment and the leading `/`
normalisation. -/
def resolvePathList (base ref : List Char) : List Char :=
  let full :=
    if ref = [] then base
    else if ref.head? = some '/' then ref
    else upToLastSlash base ++ ref
  if full = [] then []
  else
    let src := splitOnChar '/' full
    let dst := src.foldl dotStep []
    let dst :=
      if src.getLast? = some ['.'] ∨ src.getLast? = some ['.', '.'] then
        dst ++ [[]]
      else dst
    let joined := joinChar '/' dst
    if joined.head? = some '/' then joined else '/' :: joined

/-- An absolute base URL, split into the scheme-plus-host part and the
path part (which starts with `/`).  `toString` gives back the textual URL
that Go's `url.URL.String` would print. -/
structure URLBase where
  host : String
  path : String
deriving DecidableEq, Repr

def URLBase.render (b : URLBase) : String := b.host ++ b.path

/-- Model of `url.Parse` restricted to the relative references this client
builds: scheme-less, authority-less, query-less and fragment-less strings.
Parsing fails exactly on invalid percent escapes; on success the reference
is kept in its raw (escaped) spelling, which for the character sets used
in the theorems below coincides with `url.URL.EscapedPath()`. -/
def urlParseRel (s : String) : Except String String :=
  if validEscapes s.data then .ok s
  else .error ("parse " ++ s ++ ": invalid URL escape")

/-- Resolve a (successfully parsed) relative reference against a base URL:
Go's `URL.ResolveReference` for references with no scheme, authority,
query or fragment, whose result is `base.host` plus
`resolvePath(base.path, ref)`. -/
def resolveRef (base : URLBase) (rel : String) : String :=
  base.host ++ String.mk (resolvePathList base.path.data rel.data)

/-! ## encoding/json model

A JSON syntax tree plus a recursive-descent parser following Go's JSON
grammar (`encoding/json`'s scanner): one value is read from the front of
the input and the unread remainder is returned, exactly like
`json.Decoder.Decode`, which does not object to trailing data.  Numbers
with a fraction or exponent part are kept as raw lexemes (`numRaw`); they
cannot be unmarshalled into integer fields, matching Go up to the corner
case of integer-valued exponent forms, which no theorem below relies on.
String escapes are decoded without surrogate-pair combination (unused
here). -/
inductive Json where
  | null
  | jbool (b : Bool)
  | num (n : Int)
  | numRaw (lexeme : String)
  | str (s : String)
  | arr (elems : List Json)
  | obj (members : List (String × Json))

/-- Skip JSON whitespace at the front of the input. -/
def skipWS : List Char → List Char
  | [] => []
  | c :: cs => if isJsonWS c then skipWS cs else c :: cs

/-- Numeric value of a hex digit. -/
def hexVal (c : Char) : Nat :=
  if c.isDigit then c.toNat - 48
  else if 'a' ≤ c ∧ c ≤ 'f' then c.toNat - 87
  else if 'A' ≤ c ∧ c ≤ 'F' then c.toNat - 55
  else 0

/-- Parse the body of a JSON string (the opening quote already consumed),
decoding escapes; returns the string and the remaining input. -/
def parseStringBody : List Char → List Char → Except String (String × List Char)
  | _, [] => .error "unexpected end of JSON input"
  | acc, '"' :: cs => .ok (String.mk acc.reverse, cs)
  | acc, '\\' :: '"' :: cs => parseStringBody ('"' :: acc) cs
  | acc, '\\' :: '\\' :: cs => parseStringBody ('\\' :: acc) cs
  | acc, '\\' :: '/' :: cs => parseStringBody ('/' :: acc) cs
  | acc, '\\' :: 'b' :: cs => parseStringBody (Char.ofNat 8 :: acc) cs
  | acc, '\\' :: 'f' :: cs => parseStringBody (Char.ofNat 12 :: acc) cs
  | acc, '\\' :: 'n' :: cs => parseStringBody ('\n' :: acc) cs
  | acc, '\\' :: 'r' :: cs => parseStringBody ('\r' :: acc) cs
  | acc, '\\' :: 't' :: cs => parseStringBody ('\t' :: acc) cs
  | acc, '\\' :: 'u' :: a :: b :: c :: d :: cs =>
    if isHexChar a ∧ isHexChar b ∧ isHexChar c ∧ isHexChar d then
      parseStringBody
        (Char.ofNat (hexVal a * 4096 + hexVal b * 256 + hexVal c * 16 + hexVal d) :: acc) cs
    else .error "invalid character in string escape code"
  | _, '\\' :: _ => .error "invalid character in string escape code"
  | acc, c :: cs => parseStringBody (c :: acc) cs

/-- Take the maximal run of decimal digits from the front of the input. -/
def takeDigits : List Char → List Char × List Char
  | [] => ([], [])
  | c :: cs =>
    if c.isDigit then
      let (ds, r) := takeDigits cs
      (c :: ds, r)
    else ([], c :: cs)

/-- Decimal digits to a natural number. -/
def digitsToNat (acc : Nat) : List Char → Nat
  | [] => acc
  | c :: cs => digitsToNat (acc * 10 + (c.toNat - 48)) cs

/-- Parse a JSON number at the front of the input (the caller has checked
the first character is a digit or `-`), following Go's number grammar:
no leading zeros, optional fraction, optional exponent. -/
def parseNumber (cs : List Char) : Except String (Json × List Char) :=
  let (sign, cs1) :=
    match cs with
    | '-' :: rest => (['-'], rest)
    | _ => (([] : List Char), cs)
  match takeDigits cs1 with
  | ([], _) => .error "invalid number syntax"
  | (ds, rest1) =>
    if 1 < ds.length ∧ ds.head? = some '0' then .error "invalid number syntax"
    else
      let fracRes : Except String (List Char × List Char) :=
        match rest1 with
        | '.' :: rest2 =>
          match takeDigits rest2 with
          | ([], _) => .error "invalid number syntax"
          | (fs, rest3) => .ok ('.' :: fs, rest3)
        | _ => .ok ([], rest1)
      match fracRes with
      | .error e => .error e
      | .ok (fracLex, rest3) =>
        let expRes : Except String (List Char × List Char) :=
          match rest3 with
          | c :: rest4 =>
            if c = 'e' ∨ c = 'E' then
              let (esign, rest5) :=
                match rest4 with
                | '+' :: r => (['+'], r)
                | '-' :: r => (['-'], r)
                | _ => (([] : List Char), rest4)
              match takeDigits rest5 with
              | ([], _) => .error "invalid number syntax"
              | (es, rest6) => .ok (c :: (esign ++ es), rest6)
            else .ok ([], rest3)
          | [] => .ok ([], rest3)
        match expRes with
        | .error e => .error e
        | .ok (expLex, restF) =>
          if fracLex = [] ∧ expLex = [] then
            let n : Int := Int.ofNat (digitsToNat 0 ds)
            .ok (.num (if sign = [] then n else -n), restF)
          else
            .ok (.numRaw (String.mk (sign ++ ds ++ fracLex ++ expLex)), restF)

mutual

/-- Parse one JSON value from the front of the input; `fuel` bounds the
recursion depth and is chosen large enough for the whole input by
`decodeJsonTop`. -/
def parseJson : Nat → List Char → Except String (Json × List Char)
  | 0, _ => .error "JSON value too deeply nested"
  | fuel + 1, cs =>
    match skipWS cs with
    | [] => .error "unexpected end of JSON input"
    | 'n' :: 'u' :: 'l' :: 'l' :: rest => .ok (.null, rest)
    | 't' :: 'r' :: 'u' :: 'e' :: rest => .ok (.jbool true, rest)
    | 'f' :: 'a' :: 'l' :: 's' :: 'e' :: rest => .ok (.jbool false, rest)
    | '"' :: rest =>
      match parseStringBody [] rest with
      | .error e => .error e
      | .ok (s, r) => .ok (.str s, r)
    | '{' :: rest =>
      match skipWS rest with
      | '}' :: r => .ok (.obj [], r)
      | r => parseMembers fuel r []
    | '[' :: rest =>
      match skipWS rest with
      | ']' :: r => .ok (.arr [], r)
      | r => parseElems fuel r []
    | c :: rest =>
      if c = '-' ∨ c.isDigit then parseNumber (c :: rest)
      else .error ("invalid character " ++ String.mk [c] ++ " looking for beginning of value")

/-- Parse the members of a JSON object after the opening brace (non-empty
case), accumulating key/value pairs in order. -/
def parseMembers : Nat → List Char → List (String × Json) → Except String (Json × List Char)
  | 0, _, _ => .error "JSON value too deeply nested"
  | fuel + 1, cs, acc =>
    match skipWS cs with
    | '"' :: rest =>
      match parseStringBody [] rest with
      | .error e => .error e
      | .ok (k, r1) =>
        match skipWS r1 with
        | ':' :: r2 =>
          match parseJson fuel r2 with
          | .error e => .error e
          | .ok (v, r3) =>
            match skipWS r3 with
            | ',' :: r4 => parseMembers fuel r4 (acc ++ [(k, v)])
            | '}' :: r4 => .ok (.obj (acc ++ [(k, v)]), r4)
            | _ => .error "invalid character after object key:value pair"
        | _ => .error "invalid character after object key"
    | _ => .error "invalid character looking for beginning of object key string"

/-- Parse the elements of a JSON array after the opening bracket
(non-empty case), accumulating elements in order. -/
def parseElems : Nat → List Char → List Json → Except String (Json × List Char)
  | 0, _, _ => .error "JSON value too deeply nested"
  | fuel + 1, cs, acc =>
    match parseJson fuel cs with
    | .error e => .error e
    | .ok (v, r1) =>
      match skipWS r1 with
      | ',' :: r2 => parseElems fuel r2 (acc ++ [v])
      | ']' :: r2 => .ok (.arr (acc ++ [v]), r2)
      | _ => .error "invalid character after array element"

end

/-- Model of `json.Decoder.Decode`'s scanning phase on a full body: parse
the first JSON value, returning it and the unread remainder.  Fails on
empty input (Go reports `EOF`) and on syntax errors; the remainder is
ignored by callers, as `Decode` leaves trailing data unread. -/
def decodeJsonTop (s : String) : Except String (Json × List Char) :=
  parseJson (2 * s.data.length + 4) s.data

/-! ## Result records and envelope decode targets (translated from the
`opap` package's types, with Go's nullable slices as `Option (List _)`) -/
/-- `Draw` represents the results of a game's lucky draw (source struct
`Draw`, JSON tags `drawTime`, `drawNo`, `results`). -/
structure Draw where
  drawTime : String
  drawNo : Int
  results : Option (List Int)
deriving DecidableEq, Repr

/-- `PropoDraw` represents the results of a Propo game (source struct
`PropoDraw`; `results` is a string slice). -/
structure PropoDraw where
  drawTime : String
  drawNo : Int
  results : Option (List String)
deriving DecidableEq, Repr

/-- Single-draw envelope, source type `draws` (`{"draw": {...}}`). -/
structure draws where
  draw : Draw
deriving DecidableEq, Repr

/-- The anonymous inner struct of `drawsByDate` (`{"draw": [...]}`). -/
structure drawsByDateInner where
  draw : Option (List Draw)
deriving DecidableEq, Repr

/-- Multi-draw envelope, source type `drawsByDate`
(`{"draws": {"draw": [...]}}`). -/
structure drawsByDate where
  draws : drawsByDateInner
deriving DecidableEq, Repr

/-- Single-draw Propo envelope, source type `propoDraws`. -/
structure propoDraws where
  draw : PropoDraw
deriving DecidableEq, Repr

/-- The anonymous inner struct of `propoDrawsByDate`. -/
structure propoDrawsByDateInner where
  draw : Option (List PropoDraw)
deriving DecidableEq, Repr

/-- Multi-draw Propo envelope, source type `propoDrawsByDate`. -/
structure propoDrawsByDate where
  draws : propoDrawsByDateInner
deriving DecidableEq, Repr

/-- Go zero value of `Draw` (`new(draws)` zeroes every field; the nil
slice is `none`). -/
def drawZero : Draw := { drawTime := "", drawNo := 0, results := none }

def propoDrawZero : PropoDraw := { drawTime := "", drawNo := 0, results := none }

def drawsZero : draws := { draw := drawZero }

def drawsByDateZero : drawsByDate := { draws := { draw := none } }

def propoDrawsZero : propoDraws := { draw := propoDrawZero }

def propoDrawsByDateZero : propoDrawsByDate := { draws := { draw := none } }

/-! ## Unmarshalling (Go `encoding/json` semantics for the target types)

Each function takes the prior value of the target (Go unmarshals in
place) and the parsed JSON value.  JSON `null` leaves strings and
integers unchanged and sets slices to the nil slice; an object is matched
field-by-field against the JSON tags (exact-tag matching — Go's
case-insensitive fallback is irrelevant to the bodies considered here);
unknown keys are ignored; a type mismatch is an error (Go additionally
keeps partially-filled siblings on type errors, which no caller of these
functions can observe since every operation discards the target on
error). -/
def unmarshalInt (v : Int) : Json → Except String Int
  | .null => .ok v
  | .num n => .ok n
  | .numRaw s => .error ("cannot unmarshal number " ++ s ++ " into value of type int")
  | _ => .error "cannot unmarshal JSON value into value of type int"

def unmarshalString (v : String) : Json → Except String String
  | .null => .ok v
  | .str s => .ok s
  | _ => .error "cannot unmarshal JSON value into value of type string"

def unmarshalIntSlice (_v : Option (List Int)) : Json → Except String (Option (List Int))
  | .null => .ok none
  | .arr xs => (xs.mapM (unmarshalInt 0)).map some
  | _ => .error "cannot unmarshal JSON value into value of type []int"

def unmarshalStringSlice (_v : Option (List String)) : Json → Except String (Option (List String))
  | .null => .ok none
  | .arr xs => (xs.mapM (unmarshalString "")).map some
  | _ => .error "cannot unmarshal JSON value into value of type []string"

def unmarshalDraw (v : Draw) : Json → Except String Draw
  | .null => .ok v
  | .obj mems =>
    mems.foldlM (fun (acc : Draw) kv =>
      match kv with
      | ("drawTime", j) => (unmarshalString acc.drawTime j).map (fun s => { acc with drawTime := s })
      | ("drawNo", j) => (unmarshalInt acc.drawNo j).map (fun n => { acc with drawNo := n })
      | ("results", j) => (unmarshalIntSlice acc.results j).map (fun r => { acc with results := r })
      | _ => .ok acc) v
  | _ => .error "cannot unmarshal JSON value into value of type Draw"

def unmarshalPropoDraw (v : PropoDraw) : Json → Except String PropoDraw
  | .null => .ok v
  | .obj mems =>
    mems.foldlM (fun (acc : PropoDraw) kv =>
      match kv with
      | ("drawTime", j) => (unmarshalString acc.drawTime j).map (fun s => { acc with drawTime := s })
      | ("drawNo", j) => (unmarshalInt acc.drawNo j).map (fun n => { acc with drawNo := n })
      | ("results", j) => (unmarshalStringSlice acc.results j).map (fun r => { acc with results := r })
      | _ => .ok acc) v
  | _ => .error "cannot unmarshal JSON value into value of type PropoDraw"

def unmarshalDrawSlice (_v : Option (List Draw)) : Json → Except String (Option (List Draw))
  | .null => .ok none
  | .arr xs => (xs.mapM (unmarshalDraw drawZero)).map some
  | _ => .error "cannot unmarshal JSON value into value of type []Draw"

def unmarshalPropoDrawSlice (_v : Option (List PropoDraw)) : Json → Except String (Option (List PropoDraw))
  | .null => .ok none
  | .arr xs => (xs.mapM (unmarshalPropoDraw propoDrawZero)).map some
  | _ => .error "cannot unmarshal JSON value into value of type []PropoDraw"

def unmarshalDraws (v : draws) : Json → Except String draws
  | .null => .ok v
  | .obj mems =>
    mems.foldlM (fun (acc : draws) kv =>
      match kv with
      | ("draw", j) => (unmarshalDraw acc.draw j).map (fun d => { acc with draw := d })
      | _ => .ok acc) v
  | _ => .error "cannot unmarshal JSON value into value of type draws"

def unmarshalDrawsByDateInner (v : drawsByDateInner) : Json → Except String drawsByDateInner
  | .null => .ok v
  | .obj mems =>
    mems.foldlM (fun (acc : drawsByDateInner) kv =>
      match kv with
      | ("draw", j) => (unmarshalDrawSlice acc.draw j).map (fun d => { acc with draw := d })
      | _ => .ok acc) v
  | _ => .error "cannot unmarshal JSON value into inner draws struct"

def unmarshalDrawsByDate (v : drawsByDate) : Json → Except String drawsByDate
  | .null => .ok v
  | .obj mems =>
    mems.foldlM (fun (acc : drawsByDate) kv =>
      match kv with
      | ("draws", j) => (unmarshalDrawsByDateInner acc.draws j).map (fun d => { acc with draws := d })
      | _ => .ok acc) v
  | _ => .error "cannot unmarshal JSON value into value of type drawsByDate"

def unmarshalPropoDraws (v : propoDraws) : Json → Except String propoDraws
  | .null => .ok v
  | .obj mems =>
    mems.foldlM (fun (acc : propoDraws) kv =>
      match kv with
      | ("draw", j) => (unmarshalPropoDraw acc.draw j).map (fun d => { acc with draw := d })
      | _ => .ok acc) v
  | _ => .error "cannot unmarshal JSON value into value of type propoDraws"

def unmarshalPropoDrawsByDateInner (v : propoDrawsByDateInner) :
    Json → Except String propoDrawsByDateInner
  | .null => .ok v
  | .obj mems =>
    mems.foldlM (fun (acc : propoDrawsByDateInner) kv =>
      match kv with
      | ("draw", j) => (unmarshalPropoDrawSlice acc.draw j).map (fun d => { acc with draw := d })
      | _ => .ok acc) v
  | _ => .error "cannot unmarshal JSON value into inner propo draws struct"

def unmarshalPropoDrawsByDate (v : propoDrawsByDate) : Json → Except String propoDrawsByDate
  | .null => .ok v
  | .obj mems =>
    mems.foldlM (fun (acc : propoDrawsByDate) kv =>
      match kv with
      | ("draws", j) => (unmarshalPropoDrawsByDateInner acc.draws j).map (fun d => { acc with draws := d })
      | _ => .ok acc) v
  | _ => .error "cannot unmarshal JSON value into value of type propoDrawsByDate"

/-- `json.NewDecoder(r).Decode(v)` on a body held in full: parse the first
JSON value and unmarshal it into the prior target value. -/
def decodeBody {α : Type} (unmarshal : α → Json → Except String α) (v : α) (body : String) :
    Except String α :=
  match decodeJsonTop body with
  | .error e => .error e
  | .ok (j, _) => unmarshal v j

def decodeDraws : draws → String → Except String draws := decodeBody unmarshalDraws

def decodeDrawsByDate : drawsByDate → String → Except String drawsByDate :=
  decodeBody unmarshalDrawsByDate

def decodePropoDraws : propoDraws → String → Except String propoDraws :=
  decodeBody unmarshalPropoDraws

def decodePropoDrawsByDate : propoDrawsByDate → String → Except String propoDrawsByDate :=
  decodeBody unmarshalPropoDrawsByDate

/-! ## HTTP layer: requests, responses, errors, transport -/
/-- The part of `http.Request` this client observes: method and the
resolved URL in textual form. -/
structure HTTPRequest where
  Method : String
  URL : String
deriving DecidableEq, Repr

/-- The part of `http.Response` this client observes: status code, the
full body, and the request it answers (Go's `Response.Request`, set by
`http.Client.Do`). -/
structure HTTPResponse where
  StatusCode : Int
  Body : String
  Request : HTTPRequest
deriving DecidableEq, Repr

/-- Errors produced by the client, one constructor per `error`-producing
site in the source: `url.Parse` failure in `NewRequest`, a network-level
failure from `http.Client.Do`, the status error built by `checkResponse`
(`fmt.Errorf("%v %v: %d %s", method, url, status, body)`), and the decode
error built in `Do` (`fmt.Errorf("JSON decoding: %v (%s)", err, buf)`). -/
inductive GoError where
  | urlErr (msg : String)
  | transportErr (msg : String)
  | statusErr (method url : String) (status : Int) (body : String)
  | decodeErr (jsonMsg : String) (bodyRead : String)
deriving DecidableEq, Repr

/-- The injected `http.Client`: a network round trip, returning either a
transport-level error or a status code and a body. -/
def Transport : Type := HTTPRequest → Except String (Int × String)

/-- `Client` manages communication with the OPAP API (source struct
`Client`; the `Draws` service is modelled separately to break the Go
pointer cycle). -/
structure Client where
  client : Transport
  BaseURL : URLBase

/-- `drawsService` handles communication with the `DrawsRestServices`
endpoint (source struct `drawsService`; `serviceClient` is the `client`
field). -/
structure DrawsService where
  serviceClient : Client
  Endpoint : String

def defaultBaseURL : URLBase := { host := "http://applications.opap.gr", path := "/" }

def defaultDrawsEndpoint : String := "DrawsRestServices"

/-- `NewClient` returns a new OPAP API client (the nil-argument default
transport of the Go source is the injected transport here). -/
def NewClient (t : Transport) : Client :=
  { client := t, BaseURL := defaultBaseURL }

/-- The `Draws` service attached by `NewClient`
(`&drawsService{client: c, Endpoint: defaultDrawsEndpoint}`). -/
def NewClientDraws (t : Transport) : DrawsService :=
  { serviceClient := NewClient t, Endpoint := defaultDrawsEndpoint }

/-- `Client.NewRequest`: parse `urlStr`, resolve it against `BaseURL`,
and build the request.  `http.NewRequest`'s re-parse of the resolved URL
cannot fail for URLs printed by `net/url` and is not modelled as a
failure point. -/
def Client.NewRequest (c : Client) (method urlStr : String) : Except GoError HTTPRequest :=
  match urlParseRel urlStr with
  | .error e => .error (.urlErr e)
  | .ok rel => .ok { Method := method, URL := resolveRef c.BaseURL rel }

/-- `checkResponse`: HTTP status in `[200, 299]` is success; any other
status becomes an error carrying method, URL, status code and the fully
read body. -/
def checkResponse (r : HTTPResponse) : Option GoError :=
  if 200 ≤ r.StatusCode ∧ r.StatusCode ≤ 299 then none
  else some (.statusErr r.Request.Method r.Request.URL r.StatusCode r.Body)

/-- Outcome of `Client.Do`/`Client.get`, mirroring the Go multiple-return
`(resp *http.Response, err error)` plus the final state of the decode
target `v`: `noResp` is `(nil, err)`, `withErr` is `(resp, err)` and `ok`
is `(resp, nil)` with the decoded value. -/
inductive CallResult (α : Type) where
  | noResp (e : GoError)
  | withErr (resp : HTTPResponse) (e : GoError)
  | ok (resp : HTTPResponse) (v : α)

/-- The response-handling phase of `Client.Do` once the transport outcome
`tres` for `req` is at hand: classify the status, then decode the body
into the target when one is supplied (`dec = none` is Go's `v == nil`;
`v0` is the prior value of the target).  On decode failure the error
embeds the JSON error and the body captured by the `TeeReader` (the
decoder reads the full body here). -/
def runDo {α : Type} (req : HTTPRequest) (tres : Except String (Int × String)) (v0 : α)
    (dec : Option (α → String → Except String α)) : CallResult α :=
  match tres with
  | .error e => .noResp (.transportErr e)
  | .ok (status, body) =>
    let resp : HTTPResponse := { StatusCode := status, Body := body, Request := req }
    match checkResponse resp with
    | some e => .withErr resp e
    | none =>
      match dec with
      | none => .ok resp v0
      | some f =>
        match f v0 body with
        | .error je => .withErr resp (.decodeErr je body)
        | .ok v => .ok resp v

/-- `Client.Do`: send the request over the transport and handle the
response. -/
def Client.Do {α : Type} (c : Client) (req : HTTPRequest) (v0 : α)
    (dec : Option (α → String → Except String α)) : CallResult α :=
  runDo req (c.client req) v0 dec

/-- `Client.get`: `NewRequest("GET", url, nil)` followed by `Do`; a
`NewRequest` failure yields `(nil, err)` with no network interaction. -/
def Client.get {α : Type} (c : Client) (url : String) (v0 : α)
    (dec : Option (α → String → Except String α)) : CallResult α :=
  match c.NewRequest "GET" url with
  | .error e => .noResp e
  | .ok req => c.Do req v0 dec

/-! ## Game identifiers -/
/-- `Game` is used to specify which OPAP game to bring results for
(Go `type Game string`). -/
abbrev Game := String

/-- `PropoGame` (Go `type PropoGame string`). -/
abbrev PropoGame := String

def Kino : Game := "kino"

def Lotto : Game := "lotto"

def Joker : Game := "joker"

def Proto : Game := "proto"

def Super3 : Game := "super3"

def Extra5 : Game := "extra5"

def Propogoal : Game := "propogoal"

def Penalties : Game := "penalties"

def Bowling : Game := "bowling"

/-- The source constant `Pοwerspin = "pοwerspin"`; note that both the
identifier and the value are spelled with U+03BF (Greek small omicron) as
their second letter, exactly as in the Go source. -/
def Pοwerspin : Game := "pοwerspin"

/-- The string values of all `Game` constants, in source order. -/
def gameValues : List String :=
  [Kino, Lotto, Joker, Proto, Super3, Extra5, Propogoal, Penalties, Bowling, Pοwerspin]

def PropoSun : PropoGame := "proposun"

def PropoSat : PropoGame := "proposat"

def PropoWed : PropoGame := "propowed"

/-! ## The six draw-lookup operations -/
/-- Unwrapping step shared by `Latest`/`ByNumber`: error cases propagate
`(nil, resp, err)`, success returns `&d.Draw`. -/
def singleDrawResult : CallResult draws → Option Draw × Option HTTPResponse × Option GoError
  | .noResp e => (none, none, some e)
  | .withErr r e => (none, some r, some e)
  | .ok r d => (some d.draw, some r, none)

def singlePropoResult : CallResult propoDraws → Option PropoDraw × Option HTTPResponse × Option GoError
  | .noResp e => (none, none, some e)
  | .withErr r e => (none, some r, some e)
  | .ok r d => (some d.draw, some r, none)

/-- Unwrapping step shared by `ByDate` variants: success returns
`d.Draws.Draw` (a possibly-nil slice); error cases return the nil slice. -/
def byDateResult : CallResult drawsByDate →
    Option (List Draw) × Option HTTPResponse × Option GoError
  | .noResp e => (none, none, some e)
  | .withErr r e => (none, some r, some e)
  | .ok r d => (d.draws.draw, some r, none)

def propoByDateResult : CallResult propoDrawsByDate →
    Option (List PropoDraw) × Option HTTPResponse × Option GoError
  | .noResp e => (none, none, some e)
  | .withErr r e => (none, some r, some e)
  | .ok r d => (d.draws.draw, some r, none)

/-- `drawsService.Latest`: GET `{endpoint}/{game}/last.json`, decode the
single-draw envelope, return its `draw` field. -/
def DrawsService.Latest (s : DrawsService) (g : Game) :
    Option Draw × Option HTTPResponse × Option GoError :=
  let u := s.Endpoint ++ "/" ++ g ++ "/last.json"
  singleDrawResult (s.serviceClient.get u drawsZero (some decodeDraws))

/-- `drawsService.PropoLatest`. -/
def DrawsService.PropoLatest (s : DrawsService) (g : PropoGame) :
    Option PropoDraw × Option HTTPResponse × Option GoError :=
  let u := s.Endpoint ++ "/" ++ g ++ "/last.json"
  singlePropoResult (s.serviceClient.get u propoDrawsZero (some decodePropoDraws))

/-- `drawsService.ByNumber`: GET `{endpoint}/{game}/{number}.json`
(`%d` renders the Go int in plain decimal, as `Int.repr` does). -/
def DrawsService.ByNumber (s : DrawsService) (g : Game) (number : Int) :
    Option Draw × Option HTTPResponse × Option GoError :=
  let u := s.Endpoint ++ "/" ++ g ++ "/" ++ Int.repr number ++ ".json"
  singleDrawResult (s.serviceClient.get u drawsZero (some decodeDraws))

/-- `drawsService.PropoByNumber`. -/
def DrawsService.PropoByNumber (s : DrawsService) (g : PropoGame) (number : Int) :
    Option PropoDraw × Option HTTPResponse × Option GoError :=
  let u := s.Endpoint ++ "/" ++ g ++ "/" ++ Int.repr number ++ ".json"
  singlePropoResult (s.serviceClient.get u propoDrawsZero (some decodePropoDraws))

/-- The date path fragment `fmt.Sprintf("%d-%d-%d", day, month, year)`. -/
def dateFragment (day month year : Int) : String :=
  Int.repr day ++ "-" ++ Int.repr month ++ "-" ++ Int.repr year

/-- `drawsService.ByDate`: GET
`{endpoint}/{game}/drawDate/{day}-{month}-{year}.json`, decode the
multi-draw envelope, return its `draws.draw` field. -/
def DrawsService.ByDate (s : DrawsService) (g : Game) (day month year : Int) :
    Option (List Draw) × Option HTTPResponse × Option GoError :=
  let u := s.Endpoint ++ "/" ++ g ++ "/drawDate/" ++ dateFragment day month year ++ ".json"
  byDateResult (s.serviceClient.get u drawsByDateZero (some decodeDrawsByDate))

/-- `drawsService.PropoByDate`. -/
def DrawsService.PropoByDate (s : DrawsService) (g : PropoGame) (day month year : Int) :
    Option (List PropoDraw) × Option HTTPResponse × Option GoError :=
  let u := s.Endpoint ++ "/" ++ g ++ "/drawDate/" ++ dateFragment day month year ++ ".json"
  propoByDateResult (s.serviceClient.get u propoDrawsByDateZero (some decodePropoDrawsByDate))

/-! ## Plain path segments

The theorems about URL construction are stated for game tags built from
characters that `net/url` passes through unchanged (letters, digits and
`-`/`_`/`~`); nine of the ten `Game` constants and all three `PropoGame`
constants satisfy this (`Pοwerspin` contains a non-ASCII omicron, which
`url.URL.String` would percent-encode — outside the embedded fragment). -/
def plainSegChar (c : Char) : Bool :=
  c.isAlpha ∨ c.isDigit ∨ c = '-' ∨ c = '_' ∨ c = '~'

def isPlainSeg (s : String) : Bool := s.data.all plainSegChar

/-- A GET request at an absolute URL, as built by `NewRequest`. -/
def getReq (u : String) : HTTPRequest := { Method := "GET", URL := u }

/-- The absolute URL `Latest` must request for game `g`. -/
def latestURL (g : String) : String :=
  "http://applications.opap.gr/DrawsRestServices/" ++ g ++ "/last.json"

/-- The absolute URL `ByDate` must request, with day/month/year rendered
by `%d` (plain decimal, no zero-padding). -/
def byDateURL (g : String) (day month year : Int) : String :=
  "http://applications.opap.gr/DrawsRestServices/" ++ g ++ "/drawDate/" ++
    Int.repr day ++ "-" ++ Int.repr month ++ "-" ++ Int.repr year ++ ".json"

/-- The absolute URL `ByNumber` must request. -/
def byNumberURL (g : String) (n : Int) : String :=
  "http://applications.opap.gr/DrawsRestServices/" ++ g ++ "/" ++ Int.repr n ++ ".json"

/-! ## Mock transports (the test suite's `httptest` servers) -/
/-- The single-draw body served by `TestDrawService_Latest`. -/
def jokerLatestBody : String :=
  "\x7b\"draw\":\x7b\"drawTime\":\"24-12-2017T22:00:00\",\"drawNo\":1873,\"results\":[40,13,1,24,15,8]\x7d\x7d"

/-- Mock serving `jokerLatestBody` only at
`DrawsRestServices/joker/last.json`, like the test's mux (other paths get
the mux's 404). -/
def jokerLatestMock : Transport := fun req =>
  if req.Method = "GET" ∧ req.URL = latestURL "joker" then .ok (200, jokerLatestBody)
  else .ok (404, "404 page not found\n")

/-- The multi-draw body served by `TestDrawService_ByDate`. -/
def jokerByDateBody : String :=
  "\x7b\"draws\":\x7b\"draw\":[\x7b\"drawTime\":\"24-12-2017T22:00:00\",\"drawNo\":1873,\"results\":[40,13,1,24,15,8]\x7d]\x7d\x7d"

/-- Mock serving `jokerByDateBody` only at
`DrawsRestServices/joker/drawDate/24-12-2017.json`. -/
def jokerByDateMock : Transport := fun req =>
  if req.Method = "GET" ∧ req.URL = byDateURL "joker" 24 12 2017 then .ok (200, jokerByDateBody)
  else .ok (404, "404 page not found\n")

/-- Mock answering every request with 200 and body `{}`. -/
def emptyObjMock : Transport := fun _ => .ok (200, "{}")

/-- Mock answering every request with 200 and an empty `draws.draw` array. -/
def emptyArrMock : Transport := fun _ => .ok (200, "\x7b\"draws\":\x7b\"draw\":[]\x7d\x7d")

/-! ## Claims C4, C5, C7, C10 -/
/-- `connection refused` transport: every request fails at network level. -/
def refusedTransport : Transport := fun _ => .error "connection refused"

/-- Non-JSON 200 body served by `TestClient_Do_unexpectedHTML`. -/
def htmlBody : String := "<html>something broke</html>"

def htmlMock : Transport := fun _ => .ok (200, htmlBody)

/-- The scanner error my parser reports at the front of `htmlBody`. -/
def htmlJsonErr : String := "invalid character < looking for beginning of value"

/-- Mock serving `{}garbage` (valid JSON object then trailing bytes). -/
def garbageMock : Transport := fun _ => .ok (200, "{}garbage")

/-- An operation outcome whose response is present with status 500 and
whose error is non-nil (the two facts the 500-tests assert). -/
def err500 {β : Type} (r : β × Option HTTPResponse × Option GoError) : Prop :=
  (r.2.1).map HTTPResponse.StatusCode = some 500 ∧ r.2.2 ≠ none

/-- Characters allowed in the relative-path fragment of the embedding:
plain segment characters plus `/` and `.` (so dot segments are
expressible). -/
def plainRelChar (c : Char) : Bool := plainSegChar c ∨ c = '/' ∨ c = '.'

/-- A relative path over the embedded fragment that does not begin with a
separator and contains no `.`/`..` segments. -/
def plainRelPath (p : String) : Bool :=
  p.data.all plainRelChar && !(p.data.head? == some '/') &&
    (splitOnChar '/' p.data).all (fun s => !(s == ['.']) && !(s == ['.', '.']))

/-! ## Configuration frame model

The Go methods are translated statement by statement; none of their
bodies contains an assignment to any field of the `Client` or
`drawsService` structs, so the state-threaded translation below returns
the configuration component unchanged.  `OpapConfig` collects the three
observable configuration fields named by the frame claim. -/

structure OpapConfig where
  transport : Transport
  BaseURL : URLBase
  Endpoint : String

def clientOf (cfg : OpapConfig) : Client :=
  { client := cfg.transport, BaseURL := cfg.BaseURL }

def serviceOf (cfg : OpapConfig) : DrawsService :=
  { serviceClient := clientOf cfg, Endpoint := cfg.Endpoint }

/-- State-threaded `Latest`: result plus the configuration after the
call (no statement of the source body writes a configuration field). -/
def LatestST (cfg : OpapConfig) (g : Game) :
    (Option Draw × Option HTTPResponse × Option GoError) × OpapConfig :=
  ((serviceOf cfg).Latest g, cfg)

def ByNumberST (cfg : OpapConfig) (g : Game) (n : Int) :
    (Option Draw × Option HTTPResponse × Option GoError) × OpapConfig :=
  ((serviceOf cfg).ByNumber g n, cfg)

def ByDateST (cfg : OpapConfig) (g : Game) (d m y : Int) :
    (Option (List Draw) × Option HTTPResponse × Option GoError) × OpapConfig :=
  ((serviceOf cfg).ByDate g d m y, cfg)

def PropoLatestST (cfg : OpapConfig) (pg : PropoGame) :
    (Option PropoDraw × Option HTTPResponse × Option GoError) × OpapConfig :=
  ((serviceOf cfg).PropoLatest pg, cfg)

def PropoByNumberST (cfg : OpapConfig) (pg : PropoGame) (n : Int) :
    (Option PropoDraw × Option HTTPResponse × Option GoError) × OpapConfig :=
  ((serviceOf cfg).PropoByNumber pg n, cfg)

def PropoByDateST (cfg : OpapConfig) (pg : PropoGame) (d m y : Int) :
    (Option (List PropoDraw) × Option HTTPResponse × Option GoError) × OpapConfig :=
  ((serviceOf cfg).PropoByDate pg d m y, cfg)

def NewRequestST (cfg : OpapConfig) (method u : String) :
    Except GoError HTTPRequest × OpapConfig :=
  ((clientOf cfg).NewRequest method u, cfg)

def DoST {α : Type} (cfg : OpapConfig) (req : HTTPRequest) (v0 : α)
    (dec : Option (α → String → Except String α)) : CallResult α × OpapConfig :=
  ((clientOf cfg).Do req v0 dec, cfg)

/-! ## Lemmas -/

/-! ## Helper lemmas -/
lemma strEq_of_data {a b : String} (h : a.data = b.data) : a = b := by
  cases a; cases b; simp_all

lemma data_append (a b : String) : (a ++ b).data = a.data ++ b.data := rfl

lemma splitOnChar_ne_nil (sep : Char) : ∀ (l : List Char), splitOnChar sep l ≠ []
  | [] => by simp [splitOnChar]
  | c :: cs => by
    by_cases hc : c = sep
    · simp [splitOnChar, hc]
    · have := splitOnChar_ne_nil sep cs
      simp only [splitOnChar, hc, if_false]
      obtain ⟨q, qs, hq⟩ := List.exists_cons_of_ne_nil this
      rw [hq]
      simp

lemma splitOnChar_cons_sep (sep : Char) (l : List Char) :
    splitOnChar sep (sep :: l) = [] :: splitOnChar sep l := by
  simp [splitOnChar]

lemma splitOnChar_noSep (sep : Char) :
    ∀ (l : List Char), (∀ c ∈ l, c ≠ sep) → splitOnChar sep l = [l]
  | [], _ => rfl
  | c :: cs, h => by
    have hc : c ≠ sep := h c (by simp)
    have ih := splitOnChar_noSep sep cs (fun x hx => h x (by simp [hx]))
    simp [splitOnChar, hc, ih]

lemma splitOnChar_append_sep (sep : Char) :
    ∀ (xs ys : List Char), (∀ c ∈ xs, c ≠ sep) →
      splitOnChar sep (xs ++ sep :: ys) = xs :: splitOnChar sep ys
  | [], ys, _ => by simp [splitOnChar]
  | x :: xs, ys, h => by
    have hx : x ≠ sep := h x (by simp)
    have ih := splitOnChar_append_sep sep xs ys (fun c hc => h c (by simp [hc]))
    simp only [List.cons_append, splitOnChar, hx, if_false, List.append_eq, ih]

lemma joinChar_cons_of_ne_nil (sep : Char) (x : List Char) {xs : List (List Char)}
    (h : xs ≠ []) : joinChar sep (x :: xs) = x ++ sep :: joinChar sep xs := by
  obtain ⟨q, qs, rfl⟩ := List.exists_cons_of_ne_nil h
  rfl

lemma joinChar_splitOnChar (sep : Char) :
    ∀ (l : List Char), joinChar sep (splitOnChar sep l) = l
  | [] => rfl
  | c :: cs => by
    have ih := joinChar_splitOnChar sep cs
    by_cases hc : c = sep
    · rw [hc]
      rw [splitOnChar_cons_sep,
        joinChar_cons_of_ne_nil sep [] (splitOnChar_ne_nil sep cs), ih]
      rfl
    · obtain ⟨q, qs, hq⟩ := List.exists_cons_of_ne_nil (splitOnChar_ne_nil sep cs)
      have hsplit : splitOnChar sep (c :: cs) = (c :: q) :: qs := by
        simp only [splitOnChar, hc, if_false, hq]
      rw [hsplit]
      rw [hq] at ih
      cases qs with
      | nil =>
        have : q = cs := ih
        simp [joinChar, this]
      | cons r rs =>
        rw [joinChar_cons_of_ne_nil sep (c :: q) (by simp),
          List.cons_append]
        rw [joinChar_cons_of_ne_nil sep q (by simp)] at ih
        rw [ih]

lemma foldl_dotStep_keep :
    ∀ (L : List (List Char)), (∀ s ∈ L, s ≠ ['.'] ∧ s ≠ ['.', '.']) →
      ∀ init, L.foldl dotStep init = init ++ L
  | [], _, init => by simp
  | s :: L, h, init => by
    have hs := h s (by simp)
    have ih := foldl_dotStep_keep L (fun x hx => h x (by simp [hx])) (init ++ [s])
    rw [List.foldl_cons]
    have hstep : dotStep init s = init ++ [s] := by
      simp only [dotStep, if_neg hs.1, if_neg hs.2]
    rw [hstep, ih]
    simp

lemma validEscapes_of_no_pct : ∀ (l : List Char), '%' ∉ l → validEscapes l = true
  | [], _ => rfl
  | c :: cs, h => by
    have hc : c ≠ '%' := fun e => h (e ▸ List.mem_cons_self c cs)
    have ih := validEscapes_of_no_pct cs (fun hm => h (List.mem_cons_of_mem c hm))
    unfold validEscapes
    rw [if_neg hc]
    exact ih

lemma getLast?_mem_of_eq_some {α : Type} {a : α} :
    ∀ (ll : List α), ll.getLast? = some a → a ∈ ll := by
  intro ll h
  obtain ⟨hne, rfl⟩ := List.mem_getLast?_eq_getLast (show a ∈ ll.getLast? by rw [h]; rfl)
  exact List.getLast_mem hne

/-- Dot-segment removal is the identity on the paths this client builds:
resolving a relative path with no `.`/`..` segments against the base path
`/` prepends a single slash. -/
lemma resolvePathList_plain (p : List Char) (h0 : p.head? ≠ some '/')
    (hsegs : ∀ s ∈ splitOnChar '/' p, s ≠ ['.'] ∧ s ≠ ['.', '.']) :
    resolvePathList ['/'] p = '/' :: p := by
  cases p with
  | nil => rfl
  | cons c cs =>
    obtain ⟨q, qs, hq⟩ := List.exists_cons_of_ne_nil (splitOnChar_ne_nil '/' (c :: cs))
    have hsrc : splitOnChar '/' ('/' :: c :: cs) = [] :: q :: qs := by
      rw [splitOnChar_cons_sep, hq]
    have hnodots : ∀ s ∈ ([] :: q :: qs : List (List Char)),
        s ≠ ['.'] ∧ s ≠ ['.', '.'] := by
      intro s hs
      rcases List.mem_cons.mp hs with rfl | hs'
      · exact ⟨by simp, by simp⟩
      · exact hsegs s (hq ▸ hs')
    obtain ⟨lastv, hlastv⟩ : ∃ a, ([] :: q :: qs : List (List Char)).getLast? = some a := by
      rw [List.getLast?_cons_cons,
        List.getLast?_eq_getLast_of_ne_nil (show (q :: qs : List (List Char)) ≠ [] by simp)]
      exact ⟨_, rfl⟩
    have hlastnd : lastv ≠ ['.'] ∧ lastv ≠ ['.', '.'] :=
      hnodots lastv (getLast?_mem_of_eq_some _ hlastv)
    have hlastcond :
        (([] :: q :: qs : List (List Char)).getLast? = some ['.'] ∨
          ([] :: q :: qs : List (List Char)).getLast? = some ['.', '.']) = False := by
      rw [hlastv]
      simp [hlastnd.1, hlastnd.2]
    have hjoin : joinChar '/' (q :: qs) = c :: cs := by
      rw [← hq]; exact joinChar_splitOnChar '/' (c :: cs)
    simp only [resolvePathList]
    simp only [eq_false (show ¬(c :: cs : List Char) = [] by simp), if_false]
    simp only [eq_false h0, if_false]
    have hmerge : upToLastSlash ['/'] ++ c :: cs = '/' :: c :: cs := rfl
    rw [hmerge]
    simp only [eq_false (show ¬('/' :: c :: cs : List Char) = [] by simp), if_false]
    rw [hsrc]
    rw [foldl_dotStep_keep _ hnodots []]
    have hjc : joinChar '/' ([] :: q :: qs : List (List Char)) =
        [] ++ '/' :: joinChar '/' (q :: qs) :=
      joinChar_cons_of_ne_nil '/' [] (by simp)
    simp only [hlastcond, if_false, List.nil_append, hjc, hjoin]
    simp

lemma plainSegChar_excl {c : Char} (h : plainSegChar c = true) :
    c ≠ '/' ∧ c ≠ '%' ∧ c ≠ '.' := by
  refine ⟨?_, ?_, ?_⟩ <;> rintro rfl <;> revert h <;> decide

lemma isPlainSeg_spec {g : String} (hg : isPlainSeg g = true) :
    ∀ c ∈ g.data, c ≠ '/' ∧ c ≠ '%' ∧ c ≠ '.' := by
  intro c hc
  have hall : ∀ x ∈ g.data, plainSegChar x = true := by
    simpa [isPlainSeg] using hg
  exact plainSegChar_excl (hall c hc)

lemma isPlainSeg_ne_dots {g : String} (hg : isPlainSeg g = true) :
    g.data ≠ ['.'] ∧ g.data ≠ ['.', '.'] := by
  constructor
  · intro he
    exact (isPlainSeg_spec hg '.' (by rw [he]; simp)).2.2 rfl
  · intro he
    exact (isPlainSeg_spec hg '.' (by rw [he]; simp)).2.2 rfl

lemma digitChar_isDigit : ∀ n : Nat, n < 10 → (Nat.digitChar n).isDigit = true := by decide

lemma toDigitsCore_isDigit :
    ∀ (fuel n : Nat) (ds : List Char), (∀ c ∈ ds, c.isDigit = true) →
      ∀ c ∈ Nat.toDigitsCore 10 fuel n ds, c.isDigit = true
  | 0, _, _, hds => hds
  | fuel + 1, n, ds, hds => by
    have hds' : ∀ c ∈ Nat.digitChar (n % 10) :: ds, c.isDigit = true := by
      intro c hc
      rcases List.mem_cons.mp hc with rfl | hc'
      · exact digitChar_isDigit _ (Nat.mod_lt _ (by norm_num))
      · exact hds c hc'
    intro c hc
    simp only [Nat.toDigitsCore] at hc
    by_cases hz : n / 10 = 0
    · rw [if_pos hz] at hc
      exact hds' c hc
    · rw [if_neg hz] at hc
      exact toDigitsCore_isDigit fuel (n / 10) _ hds' c hc

lemma natRepr_isDigit (n : Nat) : ∀ c ∈ (Nat.repr n).data, c.isDigit = true := by
  intro c hc
  have hdata : (Nat.repr n).data = Nat.toDigitsCore 10 (n + 1) n [] := rfl
  rw [hdata] at hc
  exact toDigitsCore_isDigit (n + 1) n [] (by simp) c hc

lemma intRepr_chars (i : Int) : ∀ c ∈ (Int.repr i).data, c.isDigit = true ∨ c = '-' := by
  cases i with
  | ofNat m =>
    intro c hc
    exact Or.inl (natRepr_isDigit m c hc)
  | negSucc m =>
    intro c hc
    have hdata : (Int.repr (Int.negSucc m)).data = '-' :: (Nat.repr (m + 1)).data := rfl
    rw [hdata] at hc
    rcases List.mem_cons.mp hc with rfl | hc'
    · exact Or.inr rfl
    · exact Or.inl (natRepr_isDigit (m + 1) c hc')

lemma digit_or_dash_excl {c : Char} (h : c.isDigit = true ∨ c = '-') :
    c ≠ '/' ∧ c ≠ '%' ∧ c ≠ '.' := by
  rcases h with h | rfl
  · refine ⟨?_, ?_, ?_⟩ <;> rintro rfl <;> revert h <;> decide
  · exact ⟨by decide, by decide, by decide⟩

lemma dateFragment_chars (d m y : Int) :
    ∀ c ∈ (dateFragment d m y).data, c.isDigit = true ∨ c = '-' := by
  intro c hc
  have hsh : (dateFragment d m y).data =
      (((Int.repr d).data ++ ['-']) ++ (Int.repr m).data ++ ['-']) ++ (Int.repr y).data := rfl
  rw [hsh] at hc
  rcases List.mem_append.mp hc with hc1 | hc1
  · rcases List.mem_append.mp hc1 with hc2 | hc2
    · rcases List.mem_append.mp hc2 with hc3 | hc3
      · rcases List.mem_append.mp hc3 with hc4 | hc4
        · exact intRepr_chars d c hc4
        · exact Or.inr (by simpa using hc4)
      · exact intRepr_chars m c hc3
    · exact Or.inr (by simpa using hc2)
  · exact intRepr_chars y c hc1

/-- `NewRequest` on the default client resolves a dot-segment-free plain
relative path by string concatenation onto the base URL. -/
lemma NewRequest_default (t : Transport) (m u : String)
    (h1 : validEscapes u.data = true)
    (h2 : u.data.head? ≠ some '/')
    (h3 : ∀ s ∈ splitOnChar '/' u.data, s ≠ ['.'] ∧ s ≠ ['.', '.']) :
    (NewClient t).NewRequest m u =
      .ok { Method := m, URL := "http://applications.opap.gr/" ++ u } := by
  have hparse : urlParseRel u = .ok u := by
    unfold urlParseRel
    rw [if_pos h1]
  have hresolve : resolveRef (NewClient t).BaseURL u = "http://applications.opap.gr/" ++ u := by
    show resolveRef defaultBaseURL u = _
    unfold resolveRef defaultBaseURL
    have hpath : ({ host := "http://applications.opap.gr", path := "/" } : URLBase).path.data
        = ['/'] := rfl
    rw [hpath, resolvePathList_plain u.data h2 h3]
    apply strEq_of_data
    rfl
  unfold Client.NewRequest
  rw [hparse]
  show Except.ok ({ Method := m, URL := resolveRef (NewClient t).BaseURL u } : HTTPRequest) =
    Except.ok ({ Method := m, URL := "http://applications.opap.gr/" ++ u } : HTTPRequest)
  rw [hresolve]

/-- `Client.get` after a successful parse is `runDo` at the resolved
request. -/
lemma get_eq_runDo {α : Type} (c : Client) (u : String) (v0 : α)
    (dec : Option (α → String → Except String α))
    (h : validEscapes u.data = true) :
    c.get u v0 dec =
      runDo { Method := "GET", URL := resolveRef c.BaseURL u }
        (c.client { Method := "GET", URL := resolveRef c.BaseURL u }) v0 dec := by
  have hparse : urlParseRel u = .ok u := by
    unfold urlParseRel
    rw [if_pos h]
  unfold Client.get Client.NewRequest
  rw [hparse]
  rfl

lemma ne_dots_of_length {l : List Char} (h : 2 < l.length) :
    l ≠ ['.'] ∧ l ≠ ['.', '.'] := by
  constructor
  · intro he; rw [he] at h; simp at h
  · intro he; rw [he] at h; simp at h

/-- The three `NewRequest_default` hypotheses hold for every relative path
of the shape `DrawsRestServices/{g}/{tail}` with a plain game segment and
a well-behaved tail. -/
lemma pathData_facts (g : String) (hg : isPlainSeg g = true) (tl : List Char)
    (htl_pct : '%' ∉ tl)
    (htl_segs : ∀ s ∈ splitOnChar '/' tl, s ≠ ['.'] ∧ s ≠ ['.', '.']) :
    validEscapes ("DrawsRestServices".data ++ '/' :: (g.data ++ '/' :: tl)) = true ∧
    ("DrawsRestServices".data ++ '/' :: (g.data ++ '/' :: tl)).head? ≠ some '/' ∧
    ∀ s ∈ splitOnChar '/' ("DrawsRestServices".data ++ '/' :: (g.data ++ '/' :: tl)),
      s ≠ ['.'] ∧ s ≠ ['.', '.'] := by
  refine ⟨?_, ?_, ?_⟩
  · apply validEscapes_of_no_pct
    intro hm
    rcases List.mem_append.mp hm with h | h
    · revert h; decide
    · rcases List.mem_cons.mp h with h | h
      · exact absurd h (by decide)
      · rcases List.mem_append.mp h with h | h
        · exact (isPlainSeg_spec hg _ h).2.1 rfl
        · rcases List.mem_cons.mp h with h | h
          · exact absurd h (by decide)
          · exact htl_pct h
  · have hh : ("DrawsRestServices".data ++ '/' :: (g.data ++ '/' :: tl)).head? = some 'D' := rfl
    rw [hh]
    simp
  · rw [splitOnChar_append_sep '/' _ _ (by decide)]
    intro s hs
    rcases List.mem_cons.mp hs with rfl | hs
    · exact ⟨by decide, by decide⟩
    · rw [splitOnChar_append_sep '/' _ _ (fun c hc => (isPlainSeg_spec hg c hc).1)] at hs
      rcases List.mem_cons.mp hs with rfl | hs
      · exact isPlainSeg_ne_dots hg
      · exact htl_segs s hs

/-- Data decomposition of the `Latest` relative path. -/
lemma latest_path_data (g : String) :
    (defaultDrawsEndpoint ++ "/" ++ g ++ "/last.json").data =
      "DrawsRestServices".data ++ '/' :: (g.data ++ '/' :: "last.json".data) := rfl

/-- Data decomposition of the `ByNumber` relative path. -/
lemma bynumber_path_data (g : String) (n : Int) :
    (defaultDrawsEndpoint ++ "/" ++ g ++ "/" ++ Int.repr n ++ ".json").data =
      "DrawsRestServices".data ++ '/' :: (g.data ++ '/' :: ((Int.repr n).data ++ ".json".data)) := by
  show (((("DrawsRestServices".data ++ ['/']) ++ g.data) ++ ['/']) ++ (Int.repr n).data) ++
      ".json".data = _
  simp [List.append_assoc]

/-- Data decomposition of the `ByDate` relative path. -/
lemma bydate_path_data (g : String) (d m y : Int) :
    (defaultDrawsEndpoint ++ "/" ++ g ++ "/drawDate/" ++ dateFragment d m y ++ ".json").data =
      "DrawsRestServices".data ++ '/' :: (g.data ++ '/' ::
        ("drawDate".data ++ '/' :: ((dateFragment d m y).data ++ ".json".data))) := by
  have h2 : ("/drawDate/" : String).data = '/' :: ("drawDate".data ++ ['/']) := rfl
  show (((("DrawsRestServices".data ++ ['/']) ++ g.data) ++ ("/drawDate/" : String).data) ++
      (dateFragment d m y).data) ++ ".json".data = _
  rw [h2]
  simp [List.append_assoc]

/-- Tail facts for `last.json`. -/
lemma tail_last_facts :
    ('%' ∉ "last.json".data) ∧
    ∀ s ∈ splitOnChar '/' "last.json".data, s ≠ ['.'] ∧ s ≠ ['.', '.'] := by
  constructor
  · decide
  · decide

/-- Tail facts for `{number}.json`. -/
lemma tail_number_facts (n : Int) :
    ('%' ∉ (Int.repr n).data ++ ".json".data) ∧
    ∀ s ∈ splitOnChar '/' ((Int.repr n).data ++ ".json".data), s ≠ ['.'] ∧ s ≠ ['.', '.'] := by
  have hchars : ∀ c ∈ (Int.repr n).data ++ ".json".data, c ≠ '/' ∧ c ≠ '%' := by
    intro c hc
    rcases List.mem_append.mp hc with h | h
    · have := digit_or_dash_excl (intRepr_chars n c h)
      exact ⟨this.1, this.2.1⟩
    · constructor <;> (intro he; subst he; revert h; decide)
  constructor
  · intro hm
    exact (hchars '%' hm).2 rfl
  · rw [splitOnChar_noSep '/' _ (fun c hc => (hchars c hc).1)]
    intro s hs
    rcases List.mem_singleton.mp hs with rfl
    apply ne_dots_of_length
    rw [List.length_append]
    have h5 : (".json".data).length = 5 := rfl
    omega

/-- Tail facts for `drawDate/{day}-{month}-{year}.json`. -/
lemma tail_date_facts (d m y : Int) :
    ('%' ∉ "drawDate".data ++ '/' :: ((dateFragment d m y).data ++ ".json".data)) ∧
    ∀ s ∈ splitOnChar '/' ("drawDate".data ++ '/' :: ((dateFragment d m y).data ++ ".json".data)),
      s ≠ ['.'] ∧ s ≠ ['.', '.'] := by
  have hchars : ∀ c ∈ (dateFragment d m y).data ++ ".json".data, c ≠ '/' ∧ c ≠ '%' := by
    intro c hc
    rcases List.mem_append.mp hc with h | h
    · have := digit_or_dash_excl (dateFragment_chars d m y c h)
      exact ⟨this.1, this.2.1⟩
    · constructor <;> (intro he; subst he; revert h; decide)
  constructor
  · intro hm
    rcases List.mem_append.mp hm with h | h
    · revert h; decide
    · rcases List.mem_cons.mp h with h | h
      · exact absurd h (by decide)
      · exact (hchars '%' h).2 rfl
  · rw [splitOnChar_append_sep '/' _ _ (by decide)]
    intro s hs
    rcases List.mem_cons.mp hs with rfl | hs
    · exact ⟨by decide, by decide⟩
    · rw [splitOnChar_noSep '/' _ (fun c hc => (hchars c hc).1)] at hs
      rcases List.mem_singleton.mp hs with rfl
      apply ne_dots_of_length
      rw [List.length_append]
      have h5 : (".json".data).length = 5 := rfl
      omega

/-- `Client.get` on the default client with a well-behaved relative path
is `runDo` at the request whose URL is the base URL concatenated with the
path. -/
lemma get_resolved {α : Type} (t : Transport) (u P : String) (v0 : α)
    (dec : Option (α → String → Except String α))
    (h1 : validEscapes u.data = true)
    (h2 : u.data.head? ≠ some '/')
    (h3 : ∀ s ∈ splitOnChar '/' u.data, s ≠ ['.'] ∧ s ≠ ['.', '.'])
    (hP : ("http://applications.opap.gr/" ++ u) = P) :
    (NewClient t).get u v0 dec =
      runDo { Method := "GET", URL := P } (t { Method := "GET", URL := P }) v0 dec := by
  unfold Client.get
  rw [NewRequest_default t "GET" u h1 h2 h3, hP]
  rfl

/-! ## Claims -/
/-- `Latest` issues exactly one GET at `latestURL g` and handles the
transport's answer through `runDo` with the single-draw decode target. -/
lemma Latest_eq (t : Transport) (g : Game) (hg : isPlainSeg g = true) :
    (NewClientDraws t).Latest g =
      singleDrawResult
        (runDo (getReq (latestURL g)) (t (getReq (latestURL g))) drawsZero (some decodeDraws)) := by
  obtain ⟨h1, h2, h3⟩ :=
    pathData_facts g hg "last.json".data tail_last_facts.1 tail_last_facts.2
  rw [← latest_path_data g] at h1 h2 h3
  have hP : ("http://applications.opap.gr/" ++
      (defaultDrawsEndpoint ++ "/" ++ g ++ "/last.json")) = latestURL g :=
    strEq_of_data rfl
  show singleDrawResult
      ((NewClient t).get (defaultDrawsEndpoint ++ "/" ++ g ++ "/last.json")
        drawsZero (some decodeDraws)) = _
  rw [get_resolved t _ _ drawsZero (some decodeDraws) h1 h2 h3 hP]
  rfl

/-- `ByNumber` issues exactly one GET at `byNumberURL g n`. -/
lemma ByNumber_eq (t : Transport) (g : Game) (hg : isPlainSeg g = true) (n : Int) :
    (NewClientDraws t).ByNumber g n =
      singleDrawResult
        (runDo (getReq (byNumberURL g n)) (t (getReq (byNumberURL g n)))
          drawsZero (some decodeDraws)) := by
  obtain ⟨h1, h2, h3⟩ := pathData_facts g hg ((Int.repr n).data ++ ".json".data)
    (tail_number_facts n).1 (tail_number_facts n).2
  rw [← bynumber_path_data g n] at h1 h2 h3
  have hP : ("http://applications.opap.gr/" ++
      (defaultDrawsEndpoint ++ "/" ++ g ++ "/" ++ Int.repr n ++ ".json")) = byNumberURL g n :=
    strEq_of_data rfl
  show singleDrawResult
      ((NewClient t).get (defaultDrawsEndpoint ++ "/" ++ g ++ "/" ++ Int.repr n ++ ".json")
        drawsZero (some decodeDraws)) = _
  rw [get_resolved t _ _ drawsZero (some decodeDraws) h1 h2 h3 hP]
  rfl

/-- Right-associated data expansion of the date fragment. -/
lemma dateFragment_data (d m y : Int) :
    (dateFragment d m y).data =
      (Int.repr d).data ++ (("-" : String).data ++
        ((Int.repr m).data ++ (("-" : String).data ++ (Int.repr y).data))) := by
  show ((((Int.repr d).data ++ ("-" : String).data) ++ (Int.repr m).data) ++
      ("-" : String).data) ++ (Int.repr y).data = _
  simp only [List.append_assoc]

/-- The resolved `ByDate` URL is `byDateURL` (merging the base, endpoint
and date pieces of the concatenation). -/
lemma byDateURL_merge (g : String) (d m y : Int) :
    ("http://applications.opap.gr/" ++
      (defaultDrawsEndpoint ++ "/" ++ g ++ "/drawDate/" ++ dateFragment d m y ++ ".json")) =
      byDateURL g d m y := by
  apply strEq_of_data
  simp only [byDateURL, data_append, dateFragment_data, List.append_assoc]
  conv_lhs => rw [← List.append_assoc, ← List.append_assoc]
  congr 1

/-- `ByDate` issues exactly one GET at `byDateURL g day month year`. -/
lemma ByDate_eq (t : Transport) (g : Game) (hg : isPlainSeg g = true) (day month year : Int) :
    (NewClientDraws t).ByDate g day month year =
      byDateResult
        (runDo (getReq (byDateURL g day month year)) (t (getReq (byDateURL g day month year)))
          drawsByDateZero (some decodeDrawsByDate)) := by
  obtain ⟨h1, h2, h3⟩ := pathData_facts g hg
    ("drawDate".data ++ '/' :: ((dateFragment day month year).data ++ ".json".data))
    (tail_date_facts day month year).1 (tail_date_facts day month year).2
  rw [← bydate_path_data g day month year] at h1 h2 h3
  show byDateResult
      ((NewClient t).get
        (defaultDrawsEndpoint ++ "/" ++ g ++ "/drawDate/" ++ dateFragment day month year
          ++ ".json") drawsByDateZero (some decodeDrawsByDate)) = _
  rw [get_resolved t _ _ drawsByDateZero (some decodeDrawsByDate) h1 h2 h3
    (byDateURL_merge g day month year)]
  rfl

/-- `PropoByDate` issues exactly one GET at `byDateURL pg day month year`. -/
lemma PropoByDate_eq (t : Transport) (pg : PropoGame) (hpg : isPlainSeg pg = true)
    (day month year : Int) :
    (NewClientDraws t).PropoByDate pg day month year =
      propoByDateResult
        (runDo (getReq (byDateURL pg day month year)) (t (getReq (byDateURL pg day month year)))
          propoDrawsByDateZero (some decodePropoDrawsByDate)) := by
  obtain ⟨h1, h2, h3⟩ := pathData_facts pg hpg
    ("drawDate".data ++ '/' :: ((dateFragment day month year).data ++ ".json".data))
    (tail_date_facts day month year).1 (tail_date_facts day month year).2
  rw [← bydate_path_data pg day month year] at h1 h2 h3
  show propoByDateResult
      ((NewClient t).get
        (defaultDrawsEndpoint ++ "/" ++ pg ++ "/drawDate/" ++ dateFragment day month year
          ++ ".json") propoDrawsByDateZero (some decodePropoDrawsByDate)) = _
  rw [get_resolved t _ _ propoDrawsByDateZero (some decodePropoDrawsByDate) h1 h2 h3
    (byDateURL_merge pg day month year)]
  rfl

/-! ## Response classification lemmas for `Do` -/
lemma Do_eq_runDo {α : Type} (t : Transport) (req : HTTPRequest) (v0 : α)
    (dec : Option (α → String → Except String α)) :
    (NewClient t).Do req v0 dec = runDo req (t req) v0 dec := rfl

lemma runDo_transportFail {α : Type} (req : HTTPRequest) (e : String) (v0 : α)
    (dec : Option (α → String → Except String α)) :
    runDo req (.error e) v0 dec = .noResp (.transportErr e) := rfl

lemma checkResponse_2xx {r : HTTPResponse} (h1 : 200 ≤ r.StatusCode) (h2 : r.StatusCode ≤ 299) :
    checkResponse r = none := by
  unfold checkResponse
  rw [if_pos ⟨h1, h2⟩]

lemma checkResponse_non2xx {r : HTTPResponse} (h : ¬(200 ≤ r.StatusCode ∧ r.StatusCode ≤ 299)) :
    checkResponse r = some (.statusErr r.Request.Method r.Request.URL r.StatusCode r.Body) := by
  unfold checkResponse
  rw [if_neg h]

lemma runDo_ok_eq {α : Type} (req : HTTPRequest) (status : Int) (body : String) (v0 : α)
    (dec : Option (α → String → Except String α)) :
    runDo req (.ok (status, body)) v0 dec =
      (match checkResponse ⟨status, body, req⟩ with
       | some e => .withErr ⟨status, body, req⟩ e
       | none =>
         match dec with
         | none => .ok ⟨status, body, req⟩ v0
         | some f =>
           match f v0 body with
           | .error je => .withErr ⟨status, body, req⟩ (.decodeErr je body)
           | .ok v => .ok ⟨status, body, req⟩ v) := rfl

lemma runDo_2xx {α : Type} (req : HTTPRequest) (status : Int) (body : String) (v0 : α)
    (dec : Option (α → String → Except String α))
    (h1 : 200 ≤ status) (h2 : status ≤ 299) :
    runDo req (.ok (status, body)) v0 dec =
      (match dec with
       | none => .ok ⟨status, body, req⟩ v0
       | some f =>
         match f v0 body with
         | .error je => .withErr ⟨status, body, req⟩ (.decodeErr je body)
         | .ok v => .ok ⟨status, body, req⟩ v) := by
  rw [runDo_ok_eq, checkResponse_2xx h1 h2]

lemma runDo_non2xx {α : Type} (req : HTTPRequest) (status : Int) (body : String) (v0 : α)
    (dec : Option (α → String → Except String α))
    (h : ¬(200 ≤ status ∧ status ≤ 299)) :
    runDo req (.ok (status, body)) v0 dec =
      .withErr ⟨status, body, req⟩ (.statusErr req.Method req.URL status body) := by
  rw [runDo_ok_eq, @checkResponse_non2xx ⟨status, body, req⟩ h]

lemma skipWS_cons_not {c : Char} (h : isJsonWS c = false) (cs : List Char) :
    skipWS (c :: cs) = c :: cs := by
  unfold skipWS
  simp [h]

/-- The parser reads exactly the first JSON value: an empty object at the
front of the input is consumed and the trailing bytes are left unread. -/
lemma parseJson_empty_obj (f : Nat) (rest : List Char) :
    parseJson (f + 1) ('{' :: '}' :: rest) = .ok (.obj [], rest) := by
  have h1 : skipWS ('{' :: '}' :: rest) = '{' :: '}' :: rest := skipWS_cons_not (by decide) _
  have h2 : skipWS ('}' :: rest) = '}' :: rest := skipWS_cons_not (by decide) _
  simp only [parseJson, h1, h2]

/-- Decoding a body that begins with `{}` succeeds whatever trailing bytes
follow, leaving the target at its prior value. -/
lemma decodeDraws_empty_obj (trail : List Char) :
    decodeDraws drawsZero (String.mk ('{' :: '}' :: trail)) = .ok drawsZero := by
  unfold decodeDraws decodeBody decodeJsonTop
  have hdata : (String.mk ('{' :: '}' :: trail)).data = '{' :: '}' :: trail := rfl
  rw [hdata]
  have hfuel : 2 * ('{' :: '}' :: trail).length + 4 =
      (2 * ('{' :: '}' :: trail).length + 3) + 1 := rfl
  rw [hfuel, parseJson_empty_obj]
  rfl

lemma latest_path_ok (g : String) (hg : isPlainSeg g = true) :
    validEscapes (defaultDrawsEndpoint ++ "/" ++ g ++ "/last.json").data = true := by
  have h := (pathData_facts g hg "last.json".data tail_last_facts.1 tail_last_facts.2).1
  rw [← latest_path_data g] at h
  exact h

lemma bynumber_path_ok (g : String) (hg : isPlainSeg g = true) (n : Int) :
    validEscapes (defaultDrawsEndpoint ++ "/" ++ g ++ "/" ++ Int.repr n ++ ".json").data
      = true := by
  have h := (pathData_facts g hg ((Int.repr n).data ++ ".json".data)
    (tail_number_facts n).1 (tail_number_facts n).2).1
  rw [← bynumber_path_data g n] at h
  exact h

lemma bydate_path_ok (g : String) (hg : isPlainSeg g = true) (d m y : Int) :
    validEscapes
      (defaultDrawsEndpoint ++ "/" ++ g ++ "/drawDate/" ++ dateFragment d m y ++ ".json").data
      = true := by
  have h := (pathData_facts g hg
    ("drawDate".data ++ '/' :: ((dateFragment d m y).data ++ ".json".data))
    (tail_date_facts d m y).1 (tail_date_facts d m y).2).1
  rw [← bydate_path_data g d m y] at h
  exact h

/-- `Client.get` against a transport that always answers 500: the parse
succeeds, the status is classified as an error carrying method, URL,
status and body, and the response is returned. -/
lemma get_500 {α : Type} (body u : String) (v0 : α)
    (dec : Option (α → String → Except String α))
    (h : validEscapes u.data = true) :
    (NewClient (fun _ => .ok (500, body))).get u v0 dec =
      .withErr ⟨500, body, getReq (resolveRef defaultBaseURL u)⟩
        (.statusErr "GET" (resolveRef defaultBaseURL u) 500 body) := by
  have hparse : urlParseRel u = .ok u := by
    unfold urlParseRel
    rw [if_pos h]
  unfold Client.get Client.NewRequest
  rw [hparse]
  show runDo (getReq (resolveRef defaultBaseURL u)) (.ok (500, body)) v0 dec = _
  exact runDo_non2xx _ _ _ _ _ (by omega)

/-! ## Claim theorems -/

/-- Claim C1: for every game `g` (over the embedded character fragment),
`Draws.Latest(g)` issues a GET for `{endpoint}/{g}/last.json` resolved
against the default base URL, decodes the body as a single-draw envelope
and returns the envelope's `draw` field; in particular, against a mock
serving `{"draw":{"drawTime":"24-12-2017T22:00:00","drawNo":1873,
"results":[40,13,1,24,15,8]}}` at `DrawsRestServices/joker/last.json` it
returns the Draw with DrawNo 1873, Results [40,13,1,24,15,8], DrawTime
"24-12-2017T22:00:00" and a nil error. -/
theorem claim_C1 (t : Transport) (g : Game) (hg : isPlainSeg g = true) :
    ((NewClientDraws t).Latest g =
      singleDrawResult
        (runDo (getReq (latestURL g)) (t (getReq (latestURL g))) drawsZero (some decodeDraws))) ∧
    (NewClientDraws jokerLatestMock).Latest Joker =
      (some ⟨"24-12-2017T22:00:00", 1873, some [40, 13, 1, 24, 15, 8]⟩,
       some ⟨200, jokerLatestBody, getReq (latestURL "joker")⟩,
       none) := by
  constructor
  · exact Latest_eq t g hg
  · rfl

/-- Witness for C1 at `g = "joker"` with the mock transport. -/
theorem claim_C1_witness :
    isPlainSeg "joker" = true ∧
    (NewClientDraws jokerLatestMock).Latest Joker =
      (some ⟨"24-12-2017T22:00:00", 1873, some [40, 13, 1, 24, 15, 8]⟩,
       some ⟨200, jokerLatestBody, getReq (latestURL "joker")⟩,
       none) :=
  ⟨by decide, (claim_C1 jokerLatestMock "joker" (by decide)).2⟩

/-- Claim C2: for every game `g` (over the embedded character fragment)
and all integers day/month/year, `ByDate` issues a GET for
`{endpoint}/{g}/drawDate/{day}-{month}-{year}.json` with each component
rendered in plain decimal with no zero-padding (day 5 renders as `5`),
and on success returns the sequence unwrapped from `draws.draw`. -/
theorem claim_C2 (t : Transport) (g : Game) (hg : isPlainSeg g = true) (day month year : Int) :
    ((NewClientDraws t).ByDate g day month year =
      byDateResult
        (runDo (getReq (byDateURL g day month year)) (t (getReq (byDateURL g day month year)))
          drawsByDateZero (some decodeDrawsByDate))) ∧
    dateFragment 5 12 2017 = "5-12-2017" ∧
    byDateURL "joker" 5 12 2017 =
      "http://applications.opap.gr/DrawsRestServices/joker/drawDate/5-12-2017.json" ∧
    (NewClientDraws jokerByDateMock).ByDate Joker 24 12 2017 =
      (some [⟨"24-12-2017T22:00:00", 1873, some [40, 13, 1, 24, 15, 8]⟩],
       some ⟨200, jokerByDateBody, getReq (byDateURL "joker" 24 12 2017)⟩, none) := by
  refine ⟨ByDate_eq t g hg day month year, by decide, by decide, by rfl⟩

/-- Witness for C2 at `g = "joker"`, date 24-12-2017, with the mock. -/
theorem claim_C2_witness :
    isPlainSeg "joker" = true ∧
    (NewClientDraws jokerByDateMock).ByDate Joker 24 12 2017 =
      (some [⟨"24-12-2017T22:00:00", 1873, some [40, 13, 1, 24, 15, 8]⟩],
       some ⟨200, jokerByDateBody, getReq (byDateURL "joker" 24 12 2017)⟩, none) :=
  ⟨by decide, (claim_C2 jokerByDateMock "joker" (by decide) 24 12 2017).2.2.2⟩

/-- Counterexample to C3 as stated: against a 200 response with body `{}`
(which decodes successfully), `ByDate` returns a nil error together with
the nil/absent slice — the unwrapped `draws.draw` field of the
zero-valued envelope — not a non-nil empty sequence. -/
theorem claim_C3_cex :
    (NewClientDraws emptyObjMock).ByDate Joker 24 12 2017 =
      (none, some ⟨200, "{}", getReq (byDateURL "joker" 24 12 2017)⟩, none) := by
  rfl

/-- Claim C3 (amended): when the HTTP call succeeds and the body decodes,
`Latest`/`ByNumber` on the empty envelope `{}` return the zero-valued
Draw with a nil error; `ByDate`/`PropoByDate` return the decoded
`draws.draw` value with a nil error — the nil/absent slice when the field
is absent (body `{}`), and an empty-but-present sequence for an explicit
empty array. -/
theorem claim_C3 :
    (∀ (t : Transport) (g : Game), isPlainSeg g = true →
      t (getReq (latestURL g)) = .ok (200, "{}") →
      (NewClientDraws t).Latest g =
        (some ⟨"", 0, none⟩, some ⟨200, "{}", getReq (latestURL g)⟩, none)) ∧
    (∀ (t : Transport) (g : Game) (n : Int), isPlainSeg g = true →
      t (getReq (byNumberURL g n)) = .ok (200, "{}") →
      (NewClientDraws t).ByNumber g n =
        (some ⟨"", 0, none⟩, some ⟨200, "{}", getReq (byNumberURL g n)⟩, none)) ∧
    (∀ (t : Transport) (g : Game) (d m y : Int), isPlainSeg g = true →
      t (getReq (byDateURL g d m y)) = .ok (200, "{}") →
      (NewClientDraws t).ByDate g d m y =
        (none, some ⟨200, "{}", getReq (byDateURL g d m y)⟩, none)) ∧
    (∀ (t : Transport) (g : Game) (d m y : Int), isPlainSeg g = true →
      t (getReq (byDateURL g d m y)) = .ok (200, "\x7b\"draws\":\x7b\"draw\":[]\x7d\x7d") →
      (NewClientDraws t).ByDate g d m y =
        (some [], some ⟨200, "\x7b\"draws\":\x7b\"draw\":[]\x7d\x7d", getReq (byDateURL g d m y)⟩, none)) ∧
    (∀ (t : Transport) (pg : PropoGame) (d m y : Int), isPlainSeg pg = true →
      t (getReq (byDateURL pg d m y)) = .ok (200, "{}") →
      (NewClientDraws t).PropoByDate pg d m y =
        (none, some ⟨200, "{}", getReq (byDateURL pg d m y)⟩, none)) := by
  refine ⟨?_, ?_, ?_, ?_, ?_⟩
  · intro t g hg hT
    rw [Latest_eq t g hg, hT, runDo_2xx _ _ _ _ _ (by decide) (by decide)]
    simp only [show decodeDraws drawsZero "{}" = .ok drawsZero from rfl]
    rfl
  · intro t g n hg hT
    rw [ByNumber_eq t g hg n, hT, runDo_2xx _ _ _ _ _ (by decide) (by decide)]
    simp only [show decodeDraws drawsZero "{}" = .ok drawsZero from rfl]
    rfl
  · intro t g d m y hg hT
    rw [ByDate_eq t g hg d m y, hT, runDo_2xx _ _ _ _ _ (by decide) (by decide)]
    simp only [show decodeDrawsByDate drawsByDateZero "{}" = .ok drawsByDateZero from rfl]
    rfl
  · intro t g d m y hg hT
    rw [ByDate_eq t g hg d m y, hT, runDo_2xx _ _ _ _ _ (by decide) (by decide)]
    simp only [show decodeDrawsByDate drawsByDateZero "\x7b\"draws\":\x7b\"draw\":[]\x7d\x7d" =
      .ok { draws := { draw := some [] } } from rfl]
    rfl
  · intro t pg d m y hpg hT
    rw [PropoByDate_eq t pg hpg d m y, hT, runDo_2xx _ _ _ _ _ (by decide) (by decide)]
    simp only [show decodePropoDrawsByDate propoDrawsByDateZero "{}" =
      .ok propoDrawsByDateZero from rfl]
    rfl

/-- Witness for C3 (amended) at concrete mocks. -/
theorem claim_C3_witness :
    isPlainSeg "joker" = true ∧
    (NewClientDraws emptyObjMock).Latest "joker" =
      (some ⟨"", 0, none⟩, some ⟨200, "{}", getReq (latestURL "joker")⟩, none) ∧
    (NewClientDraws emptyArrMock).ByDate "joker" 24 12 2017 =
      (some [], some ⟨200, "\x7b\"draws\":\x7b\"draw\":[]\x7d\x7d", getReq (byDateURL "joker" 24 12 2017)⟩,
       none) :=
  ⟨by decide, claim_C3.1 emptyObjMock "joker" (by decide) rfl,
   claim_C3.2.2.2.1 emptyArrMock "joker" 24 12 2017 (by decide) rfl⟩

/-- Claim C4: a received status in [200,299] is success; any other status
yields an error carrying the status code, method, URL and full body while
the response is still returned; and each of the six draw operations
receiving a 500 returns both a non-nil error and a response with status
code 500. -/
theorem claim_C4 :
    (∀ (α : Type) (t : Transport) (req : HTTPRequest) (v0 : α) (status : Int) (body : String),
        t req = .ok (status, body) → 200 ≤ status → status ≤ 299 →
        (NewClient t).Do req v0 none = .ok ⟨status, body, req⟩ v0) ∧
    (∀ (α : Type) (t : Transport) (req : HTTPRequest) (v0 : α)
        (dec : Option (α → String → Except String α)) (status : Int) (body : String),
        t req = .ok (status, body) → ¬(200 ≤ status ∧ status ≤ 299) →
        (NewClient t).Do req v0 dec =
          .withErr ⟨status, body, req⟩ (.statusErr req.Method req.URL status body)) ∧
    (∀ (body : String) (g : Game) (pg : PropoGame) (n day month year : Int),
        isPlainSeg g = true → isPlainSeg pg = true →
        err500 ((NewClientDraws (fun _ => .ok (500, body))).Latest g) ∧
        err500 ((NewClientDraws (fun _ => .ok (500, body))).ByNumber g n) ∧
        err500 ((NewClientDraws (fun _ => .ok (500, body))).ByDate g day month year) ∧
        err500 ((NewClientDraws (fun _ => .ok (500, body))).PropoLatest pg) ∧
        err500 ((NewClientDraws (fun _ => .ok (500, body))).PropoByNumber pg n) ∧
        err500 ((NewClientDraws (fun _ => .ok (500, body))).PropoByDate pg day month year)) := by
  refine ⟨?_, ?_, ?_⟩
  · intro α t req v0 status body hT hs1 hs2
    rw [Do_eq_runDo, hT, runDo_2xx _ _ _ _ _ hs1 hs2]
  · intro α t req v0 dec status body hT hs
    rw [Do_eq_runDo, hT, runDo_non2xx _ _ _ _ _ hs]
  · intro body g pg n day month year hg hpg
    refine ⟨?_, ?_, ?_, ?_, ?_, ?_⟩
    · show err500 (singleDrawResult ((NewClient _).get
        (defaultDrawsEndpoint ++ "/" ++ g ++ "/last.json") drawsZero (some decodeDraws)))
      rw [get_500 body _ drawsZero _ (latest_path_ok g hg)]
      exact ⟨rfl, by simp [singleDrawResult]⟩
    · show err500 (singleDrawResult ((NewClient _).get
        (defaultDrawsEndpoint ++ "/" ++ g ++ "/" ++ Int.repr n ++ ".json")
        drawsZero (some decodeDraws)))
      rw [get_500 body _ drawsZero _ (bynumber_path_ok g hg n)]
      exact ⟨rfl, by simp [singleDrawResult]⟩
    · show err500 (byDateResult ((NewClient _).get
        (defaultDrawsEndpoint ++ "/" ++ g ++ "/drawDate/" ++ dateFragment day month year
          ++ ".json") drawsByDateZero (some decodeDrawsByDate)))
      rw [get_500 body _ drawsByDateZero _ (bydate_path_ok g hg day month year)]
      exact ⟨rfl, by simp [byDateResult]⟩
    · show err500 (singlePropoResult ((NewClient _).get
        (defaultDrawsEndpoint ++ "/" ++ pg ++ "/last.json") propoDrawsZero
        (some decodePropoDraws)))
      rw [get_500 body _ propoDrawsZero _ (latest_path_ok pg hpg)]
      exact ⟨rfl, by simp [singlePropoResult]⟩
    · show err500 (singlePropoResult ((NewClient _).get
        (defaultDrawsEndpoint ++ "/" ++ pg ++ "/" ++ Int.repr n ++ ".json")
        propoDrawsZero (some decodePropoDraws)))
      rw [get_500 body _ propoDrawsZero _ (bynumber_path_ok pg hpg n)]
      exact ⟨rfl, by simp [singlePropoResult]⟩
    · show err500 (propoByDateResult ((NewClient _).get
        (defaultDrawsEndpoint ++ "/" ++ pg ++ "/drawDate/" ++ dateFragment day month year
          ++ ".json") propoDrawsByDateZero (some decodePropoDrawsByDate)))
      rw [get_500 body _ propoDrawsByDateZero _ (bydate_path_ok pg hpg day month year)]
      exact ⟨rfl, by simp [propoByDateResult]⟩

/-- Witness for C4: the 500 mock on `Latest "joker"` and a concrete
non-2xx `Do`. -/
theorem claim_C4_witness :
    err500 ((NewClientDraws (fun _ => .ok (500, "something broke\n"))).Latest "joker") ∧
    (NewClient (fun _ => .ok (500, "x"))).Do (getReq "http://applications.opap.gr/") drawsZero
        none =
      .withErr ⟨500, "x", getReq "http://applications.opap.gr/"⟩
        (.statusErr "GET" "http://applications.opap.gr/" 500 "x") :=
  ⟨(claim_C4.2.2 "something broke\n" "joker" "proposat" 1873 24 12 2017
      (by decide) (by decide)).1,
   claim_C4.2.1 draws (fun _ => .ok (500, "x")) (getReq "http://applications.opap.gr/")
     drawsZero none 500 "x" rfl (by decide)⟩

/-- Claim C5: on a network-level failure where no response was obtained,
`Do` returns a nil response and an error preserving the underlying
transport error. -/
theorem claim_C5 {α : Type} (t : Transport) (req : HTTPRequest) (v0 : α)
    (dec : Option (α → String → Except String α)) (e : String)
    (h : t req = .error e) :
    (NewClient t).Do req v0 dec = .noResp (.transportErr e) := by
  rw [Do_eq_runDo, h, runDo_transportFail]

/-- Witness for C5 with a connection-refused transport. -/
theorem claim_C5_witness :
    (NewClient refusedTransport).Do (getReq "http://applications.opap.gr/") drawsZero
        (some decodeDraws) = .noResp (.transportErr "connection refused") :=
  claim_C5 refusedTransport (getReq "http://applications.opap.gr/") drawsZero
    (some decodeDraws) "connection refused" rfl

/-- Claim C7: on a successful status with a non-nil decode target whose
decode fails, `Do` returns the response together with an error embedding
the JSON error and the body captured by the tee reader; with a nil target
no decoding happens and no decode error can occur. -/
theorem claim_C7 {α : Type} (t : Transport) (req : HTTPRequest) (v0 : α)
    (f : α → String → Except String α) (status : Int) (body e : String)
    (hT : t req = .ok (status, body)) (h1 : 200 ≤ status) (h2 : status ≤ 299) :
    (f v0 body = .error e →
      (NewClient t).Do req v0 (some f) = .withErr ⟨status, body, req⟩ (.decodeErr e body)) ∧
    (NewClient t).Do req v0 none = .ok ⟨status, body, req⟩ v0 := by
  constructor
  · intro hf
    rw [Do_eq_runDo, hT, runDo_2xx _ _ _ _ _ h1 h2]
    simp only [hf]
  · rw [Do_eq_runDo, hT, runDo_2xx _ _ _ _ _ h1 h2]

/-- Witness for C7 with the HTML mock and the `draws` decode target. -/
theorem claim_C7_witness :
    ((NewClient htmlMock).Do (getReq (latestURL "joker")) drawsZero (some decodeDraws) =
      .withErr ⟨200, htmlBody, getReq (latestURL "joker")⟩ (.decodeErr htmlJsonErr htmlBody)) ∧
    (NewClient htmlMock).Do (getReq (latestURL "joker")) drawsZero none =
      .ok ⟨200, htmlBody, getReq (latestURL "joker")⟩ drawsZero :=
  ⟨(claim_C7 htmlMock (getReq (latestURL "joker")) drawsZero decodeDraws 200 htmlBody
      htmlJsonErr rfl (by decide) (by decide)).1 rfl,
   (claim_C7 htmlMock (getReq (latestURL "joker")) drawsZero decodeDraws 200 htmlBody
      htmlJsonErr rfl (by decide) (by decide)).2⟩

/-- Claim C10 (implicit): decoding reads only the first JSON value, so a
2xx body of one complete JSON document followed by arbitrary trailing
bytes decodes successfully and `Do` returns a nil error. -/
theorem claim_C10 (t : Transport) (req : HTTPRequest) (status : Int) (trail : List Char)
    (hT : t req = .ok (status, String.mk ('{' :: '}' :: trail)))
    (h1 : 200 ≤ status) (h2 : status ≤ 299) :
    (NewClient t).Do req drawsZero (some decodeDraws) =
      .ok ⟨status, String.mk ('{' :: '}' :: trail), req⟩ drawsZero := by
  rw [Do_eq_runDo, hT, runDo_2xx _ _ _ _ _ h1 h2]
  simp only [decodeDraws_empty_obj]

/-- Witness for C10 at body `{}garbage`. -/
theorem claim_C10_witness :
    (NewClient garbageMock).Do (getReq (latestURL "joker")) drawsZero (some decodeDraws) =
      .ok ⟨200, "{}garbage", getReq (latestURL "joker")⟩ drawsZero :=
  claim_C10 garbageMock (getReq (latestURL "joker")) 200 "garbage".data rfl
    (by decide) (by decide)

/-- Counterexample to C6 as stated: `a/../b` is a valid relative path not
starting with a separator, yet `NewRequest` resolves it with dot-segment
removal (Go `resolvePath`), producing `http://applications.opap.gr/b`,
not the string concatenation of the base URL and the path. -/
theorem claim_C6_cex :
    (NewClient refusedTransport).NewRequest "GET" "a/../b" =
      .ok { Method := "GET", URL := "http://applications.opap.gr/b" } ∧
    ("http://applications.opap.gr/b" : String) ≠
      "http://applications.opap.gr/" ++ "a/../b" := by
  exact ⟨rfl, by decide⟩

/-- Claim C6 (amended): for every relative path over the embedded
character fragment that does not start with a separator and contains no
`.`/`..` segments, `NewRequest` produces a request whose URL is the
string concatenation `baseURL ++ p`; for a syntactically invalid path
reference (an unescaped `%` not forming a valid escape) it returns the
parse error; and `NewRequest` never consults the transport, so no network
I/O is performed in either case. -/
theorem claim_C6 :
    (∀ (t : Transport) (m p : String), plainRelPath p = true →
      (NewClient t).NewRequest m p =
        .ok { Method := m, URL := "http://applications.opap.gr/" ++ p }) ∧
    (∀ (t : Transport) (m p : String), validEscapes p.data = false →
      (NewClient t).NewRequest m p =
        .error (.urlErr ("parse " ++ p ++ ": invalid URL escape"))) ∧
    (∀ (t₁ t₂ : Transport) (m p : String),
      (NewClient t₁).NewRequest m p = (NewClient t₂).NewRequest m p) := by
  refine ⟨?_, ?_, ?_⟩
  · intro t m p hp
    have hp' := hp
    unfold plainRelPath at hp'
    simp only [Bool.and_eq_true, List.all_eq_true, Bool.not_eq_true'] at hp'
    obtain ⟨⟨hall, hhead⟩, hsegs⟩ := hp'
    have h2 : p.data.head? ≠ some '/' := by
      intro he
      rw [he] at hhead
      simp at hhead
    have h1 : validEscapes p.data = true := by
      apply validEscapes_of_no_pct
      intro hm
      have hc := hall '%' hm
      revert hc
      decide
    have h3 : ∀ s ∈ splitOnChar '/' p.data, s ≠ ['.'] ∧ s ≠ ['.', '.'] := by
      intro s hs
      have hb := hsegs s hs
      simp only [Bool.and_eq_true, Bool.not_eq_true', beq_eq_false_iff_ne] at hb
      exact hb
    exact NewRequest_default t m p h1 h2 h3
  · intro t m p h
    unfold Client.NewRequest urlParseRel
    rw [if_neg (by simp [h])]
  · intro t₁ t₂ m p
    rfl

/-- Witness for C6 (amended) at a plain path and at `%foo`. -/
theorem claim_C6_witness :
    plainRelPath "foo/bar.json" = true ∧
    (NewClient refusedTransport).NewRequest "GET" "foo/bar.json" =
      .ok { Method := "GET", URL := "http://applications.opap.gr/" ++ "foo/bar.json" } ∧
    validEscapes ("%foo" : String).data = false ∧
    (NewClient refusedTransport).NewRequest "GET" "%foo" =
      .error (.urlErr ("parse " ++ "%foo" ++ ": invalid URL escape")) :=
  ⟨by decide, claim_C6.1 refusedTransport "GET" "foo/bar.json" (by decide), by decide,
   claim_C6.2.1 refusedTransport "GET" "%foo" (by decide)⟩

/-- Counterexample to C8 as stated: the tenth `Game` constant's value is
not the ASCII string "powerspin" — its second character is U+03BF (Greek
small omicron), which is not ASCII. -/
theorem claim_C8_cex :
    Pοwerspin ≠ "powerspin" ∧
    Pοwerspin.data.all (fun c => decide (c.toNat < 128)) = false := by
  exact ⟨by decide, by decide⟩

/-- Claim C8 (amended): the `Game` string values are exactly kino, lotto,
joker, proto, super3, extra5, propogoal, penalties, bowling — all ASCII —
and pοwerspin, whose second character is Greek small omicron U+03BF (code
point 959); each tag appears verbatim as the path segment between the
endpoint and the trailing file component of the operation paths. -/
theorem claim_C8 :
    gameValues = ["kino", "lotto", "joker", "proto", "super3", "extra5", "propogoal",
      "penalties", "bowling", "pοwerspin"] ∧
    Pοwerspin = String.mk ['p', Char.ofNat 959, 'w', 'e', 'r', 's', 'p', 'i', 'n'] ∧
    ((["kino", "lotto", "joker", "proto", "super3", "extra5", "propogoal", "penalties",
      "bowling"] : List String).all fun s => s.data.all fun c => decide (c.toNat < 128)) = true ∧
    (gameValues.all fun g =>
      splitOnChar '/' (defaultDrawsEndpoint ++ "/" ++ g ++ "/last.json").data ==
        ["DrawsRestServices".data, g.data, "last.json".data]) = true := by
  exact ⟨by decide, by decide, by decide, by decide⟩

/-- Claim C9: no draw-lookup, request-building or execution operation
mutates the client configuration: in the state-threaded translation of
each operation (whose source body contains no assignment to any
configuration field), the configuration after the call equals the
configuration before it — BaseURL, transport and Endpoint included. -/
theorem claim_C9 :
    (∀ (cfg : OpapConfig) (g : Game), (LatestST cfg g).2 = cfg) ∧
    (∀ (cfg : OpapConfig) (g : Game) (n : Int), (ByNumberST cfg g n).2 = cfg) ∧
    (∀ (cfg : OpapConfig) (g : Game) (d m y : Int), (ByDateST cfg g d m y).2 = cfg) ∧
    (∀ (cfg : OpapConfig) (pg : PropoGame), (PropoLatestST cfg pg).2 = cfg) ∧
    (∀ (cfg : OpapConfig) (pg : PropoGame) (n : Int), (PropoByNumberST cfg pg n).2 = cfg) ∧
    (∀ (cfg : OpapConfig) (pg : PropoGame) (d m y : Int),
      (PropoByDateST cfg pg d m y).2 = cfg) ∧
    (∀ (cfg : OpapConfig) (m u : String), (NewRequestST cfg m u).2 = cfg) ∧
    (∀ (α : Type) (cfg : OpapConfig) (req : HTTPRequest) (v0 : α)
      (dec : Option (α → String → Except String α)), (DoST cfg req v0 dec).2 = cfg) := by
  exact ⟨fun _ _ => rfl, fun _ _ _ => rfl, fun _ _ _ _ _ => rfl, fun _ _ => rfl,
    fun _ _ _ => rfl, fun _ _ _ _ _ => rfl, fun _ _ _ => rfl, fun _ _ _ _ _ => rfl⟩

end Opap
